import Mathlib

/-!
Verification of the identity and access core of the AI-Hub application hub.

The definitions below are a shallow embedding of the Python backend:

* `src/backend/src/core/rate_limit.py` — per-IP sliding-window rate limiter;
* `src/backend/src/api/applications.py` — application listing;
* `src/backend/src/api/admin.py` — admin mutations (users, access grants,
  public toggle) and their audit behaviour;
* `src/backend/src/api/oauth.py` — authorize, token and revocation endpoints;
* `src/backend/src/services/audit_service.py` — audit-row writer.

Database state is modelled as explicit record values, SQLAlchemy sessions as
state passing, raised `HTTPException`s as `Except.error` (FastAPI rolls the
transaction back, so an error carries no new state), and `time.time()` /
`datetime` values as rationals.  Python floats are embedded as `ℚ` (the
arithmetic the code performs on them is exact at the inputs of interest), and
Python `int()` truncation is `Rat.floor` (every truncated value in the code is
nonnegative, where floor and truncation agree).

`services/oauth_service.py` is not part of the source tree; the definitions
that stand in for its functions carry a doc comment starting with
`Modelled from the spec:` and follow the specification text (§4.3–§4.5).
-/

namespace AIHub

/-! ## Rate limiter — `src/backend/src/core/rate_limit.py` -/

/-- One book-keeping entry of the limiter store: `(count, window_start)`. -/
structure RLEntry where
  count : Nat
  windowStart : ℚ
deriving DecidableEq, Repr

/-- The in-memory store `{client_ip: {path_prefix: (count, window_start)}}`
(`RateLimitMiddleware.requests`), as a total function into `Option`. -/
def RLState := String → String → Option RLEntry

/-- The store of a freshly constructed middleware (an empty `defaultdict`). -/
def emptyRL : RLState := fun _ _ => none

/-- Point update of the store at one `(ip, key)` cell. -/
def RLState.set (st : RLState) (ip key : String) (e : RLEntry) : RLState :=
  fun ip' key' => if ip' = ip ∧ key' = key then some e else st ip' key'

/-- `RateLimitMiddleware.limits`: `(max_requests, window_seconds)` per class. -/
def limits (key : String) : Nat × ℚ :=
  if key = "/auth/" then (10, 60)
  else if key = "/oauth/token" then (20, 60)
  else if key = "/api/admin/" then (100, 60)
  else (200, 60)

/-- Python's `str.startswith`: a prefix test on the character sequence. -/
def strStartsWith (s pre : String) : Bool := pre.toList.isPrefixOf s.toList

/-- `RateLimitMiddleware._get_limit_key`. -/
def getLimitKey (path : String) : String :=
  if strStartsWith path "/auth/" then "/auth/"
  else if path = "/oauth/token" then "/oauth/token"
  else if strStartsWith path "/api/admin/" then "/api/admin/"
  else "default"

/-- `RateLimitMiddleware._check_rate_limit`, returning
`(is_allowed, retry_after_seconds, new store)`.  In the denied branch the code
computes `int(window_seconds - (now - window_start)) + 1`; the truncated value
is nonnegative there (the window has not expired), so `int` is `Rat.floor`. -/
def checkRateLimit (st : RLState) (ip key : String) (now : ℚ) :
    Bool × Int × RLState :=
  let ml := limits key
  match st ip key with
  | none => (true, 0, st.set ip key ⟨1, now⟩)
  | some e =>
    if now - e.windowStart > ml.2 then
      (true, 0, st.set ip key ⟨1, now⟩)
    else if e.count < ml.1 then
      (true, 0, st.set ip key ⟨e.count + 1, e.windowStart⟩)
    else
      (false, Rat.floor (ml.2 - (now - e.windowStart)) + 1, st)

/-- One incoming HTTP request as the limiter sees it: resolved client IP
(`_get_client_ip`), request path, and the `time.time()` value. -/
structure RLReq where
  ip : String
  path : String
  now : ℚ
deriving DecidableEq, Repr

/-- Run the limiter over a sequence of requests, recording for each request
the `(is_allowed, retry_after)` decision (`RateLimitMiddleware.dispatch`
serialises the calls on the shared store). -/
def runTrace (st : RLState) : List RLReq → List (RLReq × Bool × Int)
  | [] => []
  | r :: rest =>
    let out := checkRateLimit st r.ip (getLimitKey r.path) r.now
    (r, out.1, out.2.1) :: runTrace out.2.2 rest

/-- The store after running a sequence of requests. -/
def runState (st : RLState) : List RLReq → RLState
  | [] => st
  | r :: rest => runState (checkRateLimit st r.ip (getLimitKey r.path) r.now).2.2 rest

/-- Two stores agreeing on every cell of one client IP. -/
def agreeAt (st₁ st₂ : RLState) (ip : String) : Prop :=
  ∀ k, st₁ ip k = st₂ ip k

/-- A request to `/oauth/token` from a given IP at a given time. -/
def tokenReq (ip : String) (t : ℚ) : RLReq := ⟨ip, "/oauth/token", t⟩

/-! ## Data model — rows of the credential store (§3, `src/backend/src/models/`)

Identifiers (UUID columns) are embedded as `Nat`; timestamp columns as `ℚ`.
Columns never read by the endpoints under study (display names, job title,
icon URLs, the JSON payload / IP / user-agent columns of `audit_logs`,
`granted_at` timestamps) are elided. -/

/-- A `users` row. -/
structure User where
  id : Nat
  email : String
  department : Option String
  is_active : Bool
  is_admin : Bool
deriving DecidableEq, Repr

/-- An `applications` row (an OAuth client). -/
structure Application where
  id : Nat
  name : String
  slug : String
  client_id : String
  client_secret_hash : String
  redirect_uris : List String
  is_active : Bool
  is_public : Bool
  allowed_departments : List String
deriving DecidableEq, Repr

/-- A `user_groups` row together with its `user_group_members` join rows. -/
structure UserGroup where
  id : Nat
  name : String
  member_ids : List Nat
deriving DecidableEq, Repr

/-- An `application_access` grant row: exactly one of `user_id` / `group_id`
is meant to be non-null. -/
structure ApplicationAccess where
  user_id : Option Nat
  group_id : Option Nat
  application_id : Nat
  granted_by : Nat
deriving DecidableEq, Repr

/-- An `audit_logs` row (`src/backend/src/models/audit_log.py`); the
`old_values` / `new_values` / `ip_address` / `user_agent` payload columns are
elided — no claim mentions them. -/
structure AuditLog where
  user_id : Option Nat
  action : String
  entity_type : String
  entity_id : Option Nat
deriving DecidableEq, Repr

/-- An `oauth_codes` row, including the nullable PKCE columns added by
migration `j8k9l0m1n2o3`. -/
structure OAuthCode where
  code : String
  user_id : Nat
  application_id : Nat
  redirect_uri : String
  scopes : List String
  code_challenge : Option String
  code_challenge_method : Option String
  expires_at : ℚ
  consumed_at : Option ℚ
deriving DecidableEq, Repr

/-- An `oauth_tokens` row. -/
structure OAuthToken where
  token : String
  user_id : Nat
  application_id : Nat
  token_type : String
  scopes : List String
  expires_at : ℚ
  revoked_at : Option ℚ
deriving DecidableEq, Repr

/-- The durable store (§4.7): the tables the studied endpoints touch. -/
structure DB where
  users : List User
  applications : List Application
  groups : List UserGroup
  access : List ApplicationAccess
  codes : List OAuthCode
  tokens : List OAuthToken
  audit : List AuditLog
deriving DecidableEq, Repr

/-- A raised `HTTPException`: status code and detail string. -/
structure HttpError where
  status : Nat
  detail : String
deriving DecidableEq, Repr

/-! ## Application listing — `src/backend/src/api/applications.py` -/

/-- `list_applications` (lines 27–46): select the active applications, then
keep those whose `allowed_departments` is empty or contains the user's
department (`current_user.department or ""`). -/
def list_applications (db : DB) (current_user : User) : List Application :=
  let applications := db.applications.filter (fun a => a.is_active)
  let user_department := current_user.department.getD ""
  applications.filter (fun a =>
    a.allowed_departments.isEmpty || a.allowed_departments.contains user_department)

/-- Modelled from the spec: the three-axis access-decision engine of §4.6
("may user U use application A?") — no function computing it is under `src/`.
Active test, department gate, and principal gate (`is_public`, admin, direct
grant, or group grant through a group containing the user). -/
def accessDecision (db : DB) (u : User) (a : Application) : Bool :=
  a.is_active
    && (a.allowed_departments.isEmpty
        || a.allowed_departments.contains (u.department.getD ""))
    && (a.is_public || u.is_admin
        || db.access.any (fun r => r.user_id = some u.id && r.application_id = a.id)
        || db.groups.any (fun g => g.member_ids.contains u.id
            && db.access.any (fun r => r.group_id = some g.id && r.application_id = a.id)))

/-- Insert one application into a name-sorted list (helper for the "sorted by
name" phrase of §4.6). -/
def insertByName (a : Application) : List Application → List Application
  | [] => [a]
  | b :: l => if a.name ≤ b.name then a :: b :: l else b :: insertByName a l

/-- Sort applications by name (insertion sort; formalises "sorted by name"). -/
def sortByName : List Application → List Application
  | [] => []
  | a :: l => insertByName a (sortByName l)

/-! ## Audit writer — `src/backend/src/services/audit_service.py` -/

/-- `AuditService.log_action`: append one audit row to the session; it commits
(or rolls back) together with the enclosing endpoint transaction, which the
embedding renders by threading the row inside the same state value. -/
def AuditService.log_action (db : DB) (user_id : Option Nat)
    (action entity_type : String) (entity_id : Option Nat) : DB :=
  { db with audit := db.audit ++ [⟨user_id, action, entity_type, entity_id⟩] }

/-! ## Admin endpoints — `src/backend/src/api/admin.py` -/

/-- Body of `PATCH /api/admin/users/{user_id}` (`UserUpdateRequest`). -/
structure UserUpdateRequest where
  is_active : Option Bool
  is_admin : Option Bool
deriving DecidableEq, Repr

/-- `update_user` (lines 117–183): look the user up, refuse self-demotion
with 400, track `is_active` / `is_admin` changes, audit iff something
changed, commit. -/
def update_user (db : DB) (admin : User) (user_id : Nat)
    (data : UserUpdateRequest) : Except HttpError (DB × User) :=
  match db.users.find? (fun u => u.id = user_id) with
  | none => .error ⟨404, "User not found"⟩
  | some user =>
    if user.id = admin.id ∧ data.is_admin = some false then
      .error ⟨400, "Cannot remove your own admin status"⟩
    else
      let step1 : User × Bool :=
        match data.is_active with
        | some b => if user.is_active ≠ b then ({ user with is_active := b }, true)
                    else (user, false)
        | none => (user, false)
      let step2 : User × Bool :=
        match data.is_admin with
        | some b => if step1.1.is_admin ≠ b then ({ step1.1 with is_admin := b }, true)
                    else (step1.1, false)
        | none => (step1.1, false)
      let users1 := db.users.map (fun u => if u.id = user_id then step2.1 else u)
      let db1 := { db with users := users1 }
      let db2 :=
        if step1.2 || step2.2 then
          AuditService.log_action db1 (some admin.id) "user.update" "user" (some user.id)
        else db1
      .ok (db2, step2.1)

/-- Body of `POST /api/admin/users/bulk` (`BulkUserActionRequest`). -/
structure BulkUserActionRequest where
  user_ids : List Nat
  action : String
deriving DecidableEq, Repr

/-- Effect of one bulk action on one selected user row, with a flag telling
whether the row changed (the loop bodies of lines 204–224). -/
def bulkApply (admin : User) (action : String) (u : User) : User × Bool :=
  if action = "activate" then
    if !u.is_active then ({ u with is_active := true }, true) else (u, false)
  else if action = "deactivate" then
    if u.is_active then ({ u with is_active := false }, true) else (u, false)
  else if action = "make_admin" then
    if !u.is_admin then ({ u with is_admin := true }, true) else (u, false)
  else if action = "remove_admin" then
    if u.id ≠ admin.id ∧ u.is_admin then ({ u with is_admin := false }, true)
    else (u, false)
  else (u, false)

/-- `bulk_user_action` (lines 186–240): refuse `deactivate` / `remove_admin`
touching the acting admin with 400, apply the action to the selected rows,
audit iff at least one row changed, commit. -/
def bulk_user_action (db : DB) (admin : User)
    (data : BulkUserActionRequest) : Except HttpError (DB × Nat) :=
  if data.user_ids.contains admin.id ∧
      (data.action = "deactivate" ∨ data.action = "remove_admin") then
    .error ⟨400, "Cannot perform this action on yourself"⟩
  else
    let results := db.users.map (fun u =>
      if data.user_ids.contains u.id then bulkApply admin data.action u else (u, false))
    let updated := (results.filter (fun r => r.2)).length
    let db1 := { db with users := results.map (fun r => r.1) }
    let db2 :=
      if updated > 0 then
        AuditService.log_action db1 (some admin.id)
          ("user.bulk_" ++ data.action) "user" none
      else db1
    .ok (db2, updated)

/-- Body of `POST /api/admin/access/grant` (`AccessGrantRequest`). -/
structure AccessGrantRequest where
  application_id : Nat
  user_ids : List Nat
  group_ids : List Nat
deriving DecidableEq, Repr

/-- One iteration of the grant loops (lines 584–616): skip when a grant row
for the principal already exists, else add one.  The existence check runs
against the session including rows added earlier in the same request
(SQLAlchemy autoflush). -/
def grantStep (appId adminId : Nat) (isUser : Bool)
    (acc : List ApplicationAccess × Nat) (pid : Nat) :
    List ApplicationAccess × Nat :=
  let already := acc.1.any (fun r =>
    (if isUser then decide (r.user_id = some pid) else decide (r.group_id = some pid))
      && decide (r.application_id = appId))
  if already then acc
  else
    (acc.1 ++ [if isUser then ⟨some pid, none, appId, adminId⟩
               else ⟨none, some pid, appId, adminId⟩],
     acc.2 + 1)

/-- `grant_access` (lines 565–637): 404 on unknown application; grant to each
listed user and group unless the grant exists; audit iff `granted > 0`;
commit. -/
def grant_access (db : DB) (admin : User)
    (data : AccessGrantRequest) : Except HttpError (DB × Nat) :=
  match db.applications.find? (fun a => a.id = data.application_id) with
  | none => .error ⟨404, "Application not found"⟩
  | some _app =>
    let afterUsers :=
      data.user_ids.foldl (grantStep data.application_id admin.id true) (db.access, 0)
    let afterGroups :=
      data.group_ids.foldl (grantStep data.application_id admin.id false) afterUsers
    let db1 := { db with access := afterGroups.1 }
    let db2 :=
      if afterGroups.2 > 0 then
        AuditService.log_action db1 (some admin.id)
          "access.grant" "application" (some data.application_id)
      else db1
    .ok (db2, afterGroups.2)

/-- Body of `POST /api/admin/access/revoke` (`AccessRevokeRequest`). -/
structure AccessRevokeRequest where
  application_id : Nat
  user_ids : List Nat
  group_ids : List Nat
deriving DecidableEq, Repr

/-- Predicate for the user-revocation `DELETE` of lines 657–664. -/
def revokeUserMatch (data : AccessRevokeRequest) (r : ApplicationAccess) : Bool :=
  (match r.user_id with
   | some uid => data.user_ids.contains uid
   | none => false)
    && r.application_id = data.application_id

/-- Predicate for the group-revocation `DELETE` of lines 667–674. -/
def revokeGroupMatch (data : AccessRevokeRequest) (r : ApplicationAccess) : Bool :=
  (match r.group_id with
   | some gid => data.group_ids.contains gid
   | none => false)
    && r.application_id = data.application_id

/-- `revoke_access` (lines 640–693): delete matching grant rows (guarded by
`if data.user_ids:` / `if data.group_ids:`), summing the `rowcount`s; audit
iff `revoked > 0`.  The handler fetches the application "for the audit log"
(lines 648–652) but never uses it — the audit payload is built from the
request fields only — so the lookup has no observable effect and is elided. -/
def revoke_access (db : DB) (admin : User)
    (data : AccessRevokeRequest) : Except HttpError (DB × Nat) :=
  let rows1 := if data.user_ids.isEmpty then db.access
               else db.access.filter (fun r => !revokeUserMatch data r)
  let revoked1 := if data.user_ids.isEmpty then 0
                  else (db.access.filter (revokeUserMatch data)).length
  let rows2 := if data.group_ids.isEmpty then rows1
               else rows1.filter (fun r => !revokeGroupMatch data r)
  let revoked := revoked1 +
    (if data.group_ids.isEmpty then 0 else (rows1.filter (revokeGroupMatch data)).length)
  let db1 := { db with access := rows2 }
  if revoked > 0 then
    .ok (AuditService.log_action db1 (some admin.id)
           "access.revoke" "application" (some data.application_id), revoked)
  else .ok (db1, revoked)

/-- `set_application_public` (lines 696–715): 404 on unknown application,
else set `is_public` and commit.  Note: this handler writes no audit row. -/
def set_application_public (db : DB) (_admin : User) (app_id : Nat)
    (is_public : Bool) : Except HttpError (DB × Bool) :=
  match db.applications.find? (fun a => a.id = app_id) with
  | none => .error ⟨404, "Application not found"⟩
  | some _app =>
    let apps1 := db.applications.map
      (fun a => if a.id = app_id then { a with is_public := is_public } else a)
    .ok ({ db with applications := apps1 }, is_public)

/-! ## SHA-256 and base64url (RFC 7636 §4.2: `S256` = BASE64URL(SHA-256(v)))

Bytes are `Nat` values below 256, 32-bit words are `Nat` values reduced
modulo `2 ^ 32`.  FIPS 180-4 constants and round structure. -/

/-- Reduce to a 32-bit word. -/
def w32 (x : Nat) : Nat := x % 4294967296

/-- 32-bit modular addition. -/
def add32 (a b : Nat) : Nat := (a + b) % 4294967296

/-- Rotate a 32-bit word right by `n`. -/
def rotr32 (n x : Nat) : Nat := w32 ((x >>> n) ||| (x <<< (32 - n)))

/-- FIPS 180-4 `Σ0`. -/
def bigSigma0 (x : Nat) : Nat := rotr32 2 x ^^^ rotr32 13 x ^^^ rotr32 22 x

/-- FIPS 180-4 `Σ1`. -/
def bigSigma1 (x : Nat) : Nat := rotr32 6 x ^^^ rotr32 11 x ^^^ rotr32 25 x

/-- FIPS 180-4 `σ0`. -/
def smallSigma0 (x : Nat) : Nat := rotr32 7 x ^^^ rotr32 18 x ^^^ (x >>> 3)

/-- FIPS 180-4 `σ1`. -/
def smallSigma1 (x : Nat) : Nat := rotr32 17 x ^^^ rotr32 19 x ^^^ (x >>> 10)

/-- FIPS 180-4 `Ch(x,y,z)`. -/
def chF (x y z : Nat) : Nat := (x &&& y) ^^^ ((x ^^^ 4294967295) &&& z)

/-- FIPS 180-4 `Maj(x,y,z)`. -/
def majF (x y z : Nat) : Nat := (x &&& y) ^^^ (x &&& z) ^^^ (y &&& z)

/-- The 64 SHA-256 round constants of FIPS 180-4 §4.2.2 (in decimal). -/
def K256 : List Nat :=
  [1116352408, 1899447441, 3049323471, 3921009573, 961987163,
   1508970993, 2453635748, 2870763221, 3624381080, 310598401,
   607225278, 1426881987, 1925078388, 2162078206, 2614888103,
   3248222580, 3835390401, 4022224774, 264347078, 604807628,
   770255983, 1249150122, 1555081692, 1996064986, 2554220882,
   2821834349, 2952996808, 3210313671, 3336571891, 3584528711,
   113926993, 338241895, 666307205, 773529912, 1294757372,
   1396182291, 1695183700, 1986661051, 2177026350, 2456956037,
   2730485921, 2820302411, 3259730800, 3345764771, 3516065817,
   3600352804, 4094571909, 275423344, 430227734, 506948616,
   659060556, 883997877, 958139571, 1322822218, 1537002063,
   1747873779, 1955562222, 2024104815, 2227730452, 2361852424,
   2428436474, 2756734187, 3204031479, 3329325298]

/-- SHA-256 padding: append `0x80`, zeros to 56 mod 64, then the bit length
as eight big-endian bytes. -/
def sha256Pad (msg : List Nat) : List Nat :=
  let len := msg.length
  let bitLen := 8 * len
  let padZeros := (119 - len % 64) % 64
  msg ++ [0x80] ++ List.replicate padZeros 0 ++
    (List.range 8).map (fun i => (bitLen >>> (8 * (7 - i))) % 256)

/-- Split into 64-byte blocks (fuel-indexed so it reduces structurally). -/
def toBlocksAux : Nat → List Nat → List (List Nat)
  | 0, _ => []
  | _ + 1, [] => []
  | fuel + 1, b :: l => ((b :: l).take 64) :: toBlocksAux fuel ((b :: l).drop 64)

/-- Split a byte list into 64-byte blocks. -/
def toBlocks (l : List Nat) : List (List Nat) := toBlocksAux (l.length + 1) l

/-- Combine bytes into big-endian 32-bit words. -/
def bytesToWords : List Nat → List Nat
  | b0 :: b1 :: b2 :: b3 :: rest =>
    (((b0 * 256 + b1) * 256 + b2) * 256 + b3) :: bytesToWords rest
  | _ => []

/-- The eight working variables of the compression function. -/
structure Hash8 where
  a : Nat
  b : Nat
  c : Nat
  d : Nat
  e : Nat
  f : Nat
  g : Nat
  h : Nat
deriving DecidableEq, Repr

/-- The SHA-256 initial hash value of FIPS 180-4 §5.3.3 (in decimal). -/
def initH : Hash8 :=
  ⟨1779033703, 3144134277, 1013904242, 2773480762,
   1359893119, 2600822924, 528734635, 1541459225⟩

/-- Extend 16 message words to the 64-entry message schedule. -/
def schedule (wordsIn : List Nat) : List Nat :=
  (List.range 48).foldl
    (fun ws _ =>
      let n := ws.length
      ws ++ [add32 (add32 (smallSigma1 (ws.getD (n - 2) 0)) (ws.getD (n - 7) 0))
              (add32 (smallSigma0 (ws.getD (n - 15) 0)) (ws.getD (n - 16) 0))])
    wordsIn

/-- One round of the SHA-256 compression function. -/
def round256 (ws : List Nat) (st : Hash8) (t : Nat) : Hash8 :=
  let T1 := add32 st.h (add32 (bigSigma1 st.e)
    (add32 (chF st.e st.f st.g) (add32 (K256.getD t 0) (ws.getD t 0))))
  let T2 := add32 (bigSigma0 st.a) (majF st.a st.b st.c)
  ⟨add32 T1 T2, st.a, st.b, st.c, add32 st.d T1, st.e, st.f, st.g⟩

/-- Compress one 64-byte block into the running hash value. -/
def compressBlock (H : Hash8) (block : List Nat) : Hash8 :=
  let ws := schedule (bytesToWords block)
  let fin := (List.range 64).foldl (round256 ws) H
  ⟨add32 H.a fin.a, add32 H.b fin.b, add32 H.c fin.c, add32 H.d fin.d,
   add32 H.e fin.e, add32 H.f fin.f, add32 H.g fin.g, add32 H.h fin.h⟩

/-- A 32-bit word as four big-endian bytes. -/
def wordBytes (w : Nat) : List Nat :=
  [w >>> 24 % 256, w >>> 16 % 256, w >>> 8 % 256, w % 256]

/-- SHA-256 of a byte list, as the 32-byte digest. -/
def sha256 (msg : List Nat) : List Nat :=
  let H := (toBlocks (sha256Pad msg)).foldl compressBlock initH
  ([H.a, H.b, H.c, H.d, H.e, H.f, H.g, H.h]).flatMap wordBytes

/-- The base64url alphabet (RFC 4648 §5). -/
def b64Char (n : Nat) : Char :=
  ("ABCDEFGHIJKLMNOPQRSTUVWXYZabcdefghijklmnopqrstuvwxyz0123456789-_".toList).getD n 'A'

/-- BASE64URL encoding without padding (as RFC 7636 prescribes for `S256`). -/
def base64urlEncode : List Nat → String
  | [] => ""
  | [b0] => String.mk [b64Char (b0 >>> 2), b64Char ((b0 % 4) <<< 4)]
  | [b0, b1] => String.mk [b64Char (b0 >>> 2),
      b64Char (((b0 % 4) <<< 4) ||| (b1 >>> 4)), b64Char ((b1 % 16) <<< 2)]
  | b0 :: b1 :: b2 :: rest =>
    String.mk [b64Char (b0 >>> 2), b64Char (((b0 % 4) <<< 4) ||| (b1 >>> 4)),
      b64Char (((b1 % 16) <<< 2) ||| (b2 >>> 6)), b64Char (b2 % 64)]
      ++ base64urlEncode rest

/-- UTF-8 bytes of an ASCII string (code-verifier characters are the ASCII
subset `[A-Za-z0-9._~-]` of RFC 7636, where codepoint = byte). -/
def strToBytes (s : String) : List Nat := s.toList.map (fun c => c.toNat)

/-! ## OAuth service — modelled parts (`services/oauth_service.py` is not
under `src/`; only its callers in `api/oauth.py` are) -/

/-- Modelled from the spec: `oauth_service.hash_secret` (§4.7 hashes client
secrets with a memory-hard password hash, constant-time verification).  The
hash is abstracted as an injective tagging; no claim depends on its shape. -/
def hash_secret (s : String) : String := "pbkdf$" ++ s

/-- Modelled from the spec: `oauth_service.verify_secret` — verification of a
presented secret against the stored hash (§4.7). -/
def verify_secret (s stored : String) : Bool := hash_secret s = stored

/-- Modelled from the spec: `oauth_service.get_application_by_client_id` —
§4.3 step 3 treats "not found or inactive" alike, so the lookup yields only
active applications. -/
def get_application_by_client_id (db : DB) (cid : String) : Option Application :=
  db.applications.find? (fun a => a.client_id = cid && a.is_active)

/-- Modelled from the spec: `oauth_service.validate_redirect_uri` — §4.3
step 4, membership in the registered list by exact string comparison. -/
def validate_redirect_uri (app : Application) (uri : String) : Bool :=
  app.redirect_uris.contains uri

/-- The PKCE check of §4.4 step 3: `S256` compares
`BASE64URL(SHA-256(code_verifier))` with the stored challenge, `plain`
compares the verifier itself (authorize defaults an absent method to
`plain`). -/
def pkceMatch (method : Option String) (verifier challenge : String) : Bool :=
  if method = some "S256" then
    base64urlEncode (sha256 (strToBytes verifier)) = challenge
  else
    verifier = challenge

/-! ## Authorization endpoint — `src/backend/src/api/oauth.py` lines 40–121 -/

/-- A response of the authorize endpoint: a `RedirectResponse` (302) or a
raised `HTTPException`.  Query strings are assembled as the source does with
`urlencode`, except that percent-escaping of the values is elided. -/
inductive HttpResponse where
  | redirect (url : String)
  | clientError (status : Nat) (detail : String)
deriving DecidableEq, Repr

/-- Join query parameters as `urlencode` does (percent-escaping elided). -/
def queryString (ps : List (String × String)) : String :=
  String.intercalate "&" (ps.map (fun p => p.1 ++ "=" ++ p.2))

/-- `authorize` (lines 40–121): validate `response_type` and the PKCE method
(redirecting errors to the supplied URI), look the client up — **redirecting**
`invalid_client` to the still-unverified URI —, then check `redirect_uri`
membership (400 directly), bounce anonymous users to SSO login, and otherwise
mint an authorization code (`create_authorization_code` is modelled from the
spec §4.3 step 6: a ≤10-minute code bound to user, application, redirect URI,
scopes and the PKCE pair; its opaque high-entropy string is rendered by a
deterministic tag). -/
def authorize (db : DB) (now : ℚ) (response_type client_id redirect_uri scope : String)
    (state code_challenge code_challenge_method : Option String)
    (current_user : Option User) : HttpResponse × DB :=
  if response_type ≠ "code" then
    (.redirect (redirect_uri ++ "?error=unsupported_response_type&state="
      ++ state.getD ""), db)
  else if (match code_challenge_method with
           | some m => decide (m ≠ "S256" ∧ m ≠ "plain")
           | none => false) then
    (.redirect (redirect_uri
      ++ "?error=invalid_request&error_description=invalid_code_challenge_method&state="
      ++ state.getD ""), db)
  else
    let method := if code_challenge.isSome && code_challenge_method.isNone
                  then some "plain" else code_challenge_method
    match get_application_by_client_id db client_id with
    | none =>
      (.redirect (redirect_uri ++ "?error=invalid_client&state=" ++ state.getD ""), db)
    | some application =>
      if !validate_redirect_uri application redirect_uri then
        (.clientError 400 "Invalid redirect_uri", db)
      else
        match current_user with
        | none =>
          let baseParams := [("response_type", response_type), ("client_id", client_id),
            ("redirect_uri", redirect_uri), ("scope", scope), ("state", state.getD "")]
          let allParams := baseParams ++
            (match code_challenge with
             | some ch => [("code_challenge", ch),
                 ("code_challenge_method", (method).getD "")]
             | none => [])
          (.redirect ("/auth/sso/login?redirect_to=/oauth/authorize?"
            ++ queryString allParams), db)
        | some user =>
          let scopes := if scope = "" then ["openid"] else scope.splitOn " "
          let codeStr := "authcode$" ++ client_id ++ "$" ++ toString db.codes.length
          let newCode : OAuthCode :=
            ⟨codeStr, user.id, application.id, redirect_uri, scopes,
             code_challenge, method, now + 600, none⟩
          let params := [("code", codeStr)] ++
            (match state with | some s => [("state", s)] | none => [])
          (.redirect (redirect_uri ++ "?" ++ queryString params),
           { db with codes := db.codes ++ [newCode] })

/-! ## Token endpoint, `authorization_code` branch — `api/oauth.py` 124–159
calls `oauth_service.exchange_code_for_tokens`, which is not under `src/`. -/

/-- The token envelope of §4.4 step 6. -/
structure TokenResponse where
  access_token : String
  refresh_token : String
  id_token : String
  token_type : String
  expires_in : Nat
deriving DecidableEq, Repr

/-- Mark the code row named `code` consumed at time `now` (the
`consumed_at := now` write of §4.4 step 4; the code string is the row key). -/
def markCode (code : String) (now : ℚ) (x : OAuthCode) : OAuthCode :=
  if x.code = code then { x with consumed_at := some now } else x

/-- Modelled from the spec: `oauth_service.exchange_code_for_tokens`
(§4.4 authorization_code branch).  Look the code up — `invalid_grant` if
missing, already consumed, or expired; `invalid_grant` on client-id or
redirect-URI mismatch; PKCE validation when the code carries a challenge
(client secret otherwise, failing `invalid_client`); then mark the code
consumed and mint the token pair in the same transaction (the single
returned state).  Token strings are opaque and high-entropy in the source;
the embedding renders them by deterministic tags. -/
def exchange_code_for_tokens (db : DB) (now : ℚ) (code client_id : String)
    (client_secret : Option String) (redirect_uri : String)
    (code_verifier : Option String) : Except String (DB × TokenResponse) :=
  match db.codes.find? (fun c => c.code = code) with
  | none => .error "invalid_grant"
  | some c =>
    if c.consumed_at.isSome then .error "invalid_grant"
    else if c.expires_at < now then .error "invalid_grant"
    else
      match db.applications.find? (fun a => a.id = c.application_id) with
      | none => .error "invalid_grant"
      | some app =>
        if app.client_id ≠ client_id then .error "invalid_grant"
        else if c.redirect_uri ≠ redirect_uri then .error "invalid_grant"
        else
          let auth : Except String Unit :=
            match c.code_challenge with
            | some challenge =>
              match code_verifier with
              | none => .error "invalid_grant"
              | some v =>
                if pkceMatch c.code_challenge_method v challenge then .ok ()
                else .error "invalid_grant"
            | none =>
              match client_secret with
              | none => .error "invalid_client"
              | some s =>
                if verify_secret s app.client_secret_hash then .ok ()
                else .error "invalid_client"
          match auth with
          | .error e => .error e
          | .ok _ =>
            let consumed := db.codes.map (markCode code now)
            let accessTok : OAuthToken :=
              ⟨"at$" ++ code, c.user_id, c.application_id, "access", c.scopes,
               now + 3600, none⟩
            let refreshTok : OAuthToken :=
              ⟨"rt$" ++ code, c.user_id, c.application_id, "refresh", c.scopes,
               now + 2592000, none⟩
            .ok ({ db with codes := consumed,
                           tokens := db.tokens ++ [accessTok, refreshTok] },
                 ⟨accessTok.token, refreshTok.token, "idt$" ++ code, "Bearer", 3600⟩)

/-- One redemption attempt at the token endpoint
(`POST /oauth/token`, `grant_type=authorization_code`). -/
structure RedeemAttempt where
  now : ℚ
  code : String
  client_id : String
  client_secret : Option String
  redirect_uri : String
  code_verifier : Option String
deriving DecidableEq, Repr

/-- Run one redemption attempt: on success the committed state advances, on
`invalid_grant` / `invalid_client` FastAPI raises and the state is unchanged. -/
def redeemStep (db : DB) (e : RedeemAttempt) : DB × Bool :=
  match exchange_code_for_tokens db e.now e.code e.client_id e.client_secret
      e.redirect_uri e.code_verifier with
  | .ok r => (r.1, true)
  | .error _ => (db, false)

/-- Number of successful redemptions of code `C` along a sequence of
redemption attempts (transactions serialised by the row-level lock of §4.7). -/
def successCount (db : DB) (C : String) : List RedeemAttempt → Nat
  | [] => 0
  | e :: evs =>
    let st := redeemStep db e
    (if st.2 ∧ e.code = C then 1 else 0) + successCount st.1 C evs

/-- Whether the code row named `C` is marked consumed. -/
def consumedB (db : DB) (C : String) : Bool :=
  match db.codes.find? (fun c => c.code = C) with
  | some c => c.consumed_at.isSome
  | none => false

/-! ## Revocation endpoint — `api/oauth.py` lines 221–258 -/

/-- Modelled from the spec: `oauth_service.revoke_token` — §4.5 "marks the
token revoked if it belongs to this client"; unknown, foreign or
already-revoked tokens leave the store unchanged, and the call never fails. -/
def revoke_token_svc (db : DB) (now : ℚ) (tok : String) (application_id : Nat) : DB :=
  { db with tokens := db.tokens.map (fun t =>
      if t.token = tok && t.application_id = application_id && t.revoked_at.isNone
      then { t with revoked_at := some now } else t) }

/-- `revoke_token` endpoint (lines 221–258): authenticate the client (401
`invalid_client` on unknown client or bad secret), revoke, and always return
200 with an empty body (`return {}`), rendered as `Unit`. -/
def revoke_endpoint (db : DB) (now : ℚ) (token cid secret : String) :
    Except HttpError (DB × Unit) :=
  match get_application_by_client_id db cid with
  | none => .error ⟨401, "invalid_client"⟩
  | some application =>
    if !verify_secret secret application.client_secret_hash then
      .error ⟨401, "invalid_client"⟩
    else
      .ok (revoke_token_svc db now token application.id, ())

/-! ## Concrete example state, used by counterexamples and witnesses -/

/-- An administrator row. -/
def exAdmin : User := ⟨1, "admin@corp.example", some "IT", true, true⟩

/-- A regular (non-admin) user row. -/
def exBob : User := ⟨2, "bob@corp.example", some "Finance", true, false⟩

/-- An active, non-public application with no departmental restriction. -/
def exApp : Application :=
  ⟨1, "Wiki", "wiki", "cid1", hash_secret "s3cret1",
   ["https://wiki.example/cb"], true, false, []⟩

/-- A small store: two users, one application, no grants, empty audit log. -/
def exDb : DB := ⟨[exAdmin, exBob], [exApp], [], [], [], [], []⟩

/-- A group containing Bob. -/
def exGroup : UserGroup := ⟨10, "Engineers", [2]⟩

/-- A store where Bob and the group already hold grants on the application. -/
def exDbGrants : DB :=
  ⟨[exAdmin, exBob], [exApp], [exGroup],
   [⟨some 2, none, 1, 1⟩, ⟨none, some 10, 1, 1⟩], [], [], []⟩

/-- An unconsumed authorization code carrying a `plain` PKCE challenge. -/
def exCode : OAuthCode :=
  ⟨"c1", 2, 1, "https://wiki.example/cb", ["openid"], some "xyz", some "plain",
   1000, none⟩

/-- A store holding the PKCE-protected code of `exCode`. -/
def exDbOAuth : DB := ⟨[exBob], [exApp], [], [], [exCode], [], []⟩

/-- Decidable equality on endpoint results (not provided by the library). -/
instance {ε α : Type} [DecidableEq ε] [DecidableEq α] : DecidableEq (Except ε α) :=
  fun x y =>
    match x, y with
    | .ok a, .ok b =>
      if h : a = b then .isTrue (by rw [h]) else .isFalse (by simp [h])
    | .error a, .error b =>
      if h : a = b then .isTrue (by rw [h]) else .isFalse (by simp [h])
    | .ok _, .error _ => .isFalse (by simp)
    | .error _, .ok _ => .isFalse (by simp)

/-! # Theorems

First the rate limiter (C7, C9), then the access engine and admin surface
(C2, C3, C8, C10), then the OAuth endpoints (C1, C4, C5, C6). -/

/-! ## Rate limiter -/

/-- Helper: a limiter step leaves every cell of any other client IP alone. -/
theorem checkRateLimit_other_ip (st : RLState) (ip key : String) (now : ℚ)
    (ip' k : String) (h : ip' ≠ ip) :
    (checkRateLimit st ip key now).2.2 ip' k = st ip' k := by
  unfold checkRateLimit RLState.set
  cases hst : st ip key with
  | none => simp [h]
  | some e =>
    by_cases h1 : now - e.windowStart > (limits key).2
    · simp [h1, h]
    · by_cases h2 : e.count < (limits key).1
      · simp [h1, h2, h]
      · simp [h1, h2]

/-- Helper: the limiter's decision and the cells of the stepped IP depend
only on that IP's cells. -/
theorem checkRateLimit_agree (st₁ st₂ : RLState) (ip key : String) (now : ℚ)
    (h : ∀ k, st₁ ip k = st₂ ip k) :
    (checkRateLimit st₁ ip key now).1 = (checkRateLimit st₂ ip key now).1
    ∧ (checkRateLimit st₁ ip key now).2.1 = (checkRateLimit st₂ ip key now).2.1
    ∧ ∀ k, (checkRateLimit st₁ ip key now).2.2 ip k
        = (checkRateLimit st₂ ip key now).2.2 ip k := by
  have hkey := h key
  unfold checkRateLimit RLState.set
  rw [hkey]
  cases hst : st₂ ip key with
  | none =>
    refine ⟨rfl, rfl, fun k => ?_⟩
    by_cases hk : k = key
    · simp [hk]
    · simp [hk, h k]
  | some e =>
    by_cases h1 : now - e.windowStart > (limits key).2
    · refine ⟨by simp [h1], by simp [h1], fun k => ?_⟩
      by_cases hk : k = key
      · simp [h1, hk]
      · simp [h1, hk, h k]
    · by_cases h2 : e.count < (limits key).1
      · refine ⟨by simp [h1, h2], by simp [h1, h2], fun k => ?_⟩
        by_cases hk : k = key
        · simp [h1, h2, hk]
        · simp [h1, h2, hk, h k]
      · exact ⟨by simp [h1, h2], by simp [h1, h2], fun k => by simp [h1, h2, h k]⟩

/-- Helper: the subtrace of one client IP is fully determined by that IP's
own request subsequence and the IP's cells of the starting store. -/
theorem runTrace_project (A : String) (evs : List RLReq) :
    ∀ st₁ st₂ : RLState, (∀ k, st₁ A k = st₂ A k) →
      (runTrace st₁ evs).filter (fun x => x.1.ip = A)
        = runTrace st₂ (evs.filter (fun r => r.ip = A)) := by
  induction evs with
  | nil => intro st₁ st₂ _; simp [runTrace]
  | cons r rest ih =>
    intro st₁ st₂ h
    by_cases hr : r.ip = A
    · have h' : ∀ k, st₁ r.ip k = st₂ r.ip k := by rw [hr]; exact h
      obtain ⟨e1, e2, e3⟩ :=
        checkRateLimit_agree st₁ st₂ r.ip (getLimitKey r.path) r.now h'
      have h'' : ∀ k,
          (checkRateLimit st₁ r.ip (getLimitKey r.path) r.now).2.2 A k
            = (checkRateLimit st₂ r.ip (getLimitKey r.path) r.now).2.2 A k := by
        rw [← hr]; exact e3
      rw [hr] at e1 e2 h''
      simp [runTrace, List.filter_cons, hr]
      exact ⟨⟨e1, e2⟩, ih _ _ h''⟩
    · have hA : A ≠ r.ip := fun hEq => hr hEq.symm
      have h1 : ∀ k,
          (checkRateLimit st₁ r.ip (getLimitKey r.path) r.now).2.2 A k = st₁ A k :=
        fun k => checkRateLimit_other_ip st₁ r.ip (getLimitKey r.path) r.now A k hA
      simp [runTrace, List.filter_cons, hr]
      exact ih _ st₂ (fun k => (h1 k).trans (h k))

/-- C9 — Rate-limit decisions are independent per client IP: if two request
sequences contain the same subsequence of requests from IP `A`, the limiter
produces the same sequence of `(allowed, Retry-After)` decisions for `A`'s
requests, whatever the interleaved traffic of every other IP does
(two-run noninterference over `_check_rate_limit`'s per-IP store). -/
theorem rate_limit_noninterference (st : RLState) (A : String)
    (evs₁ evs₂ : List RLReq)
    (h : evs₁.filter (fun r => r.ip = A) = evs₂.filter (fun r => r.ip = A)) :
    (runTrace st evs₁).filter (fun x => x.1.ip = A)
      = (runTrace st evs₂).filter (fun x => x.1.ip = A) := by
  rw [runTrace_project A evs₁ st st (fun _ => rfl),
    runTrace_project A evs₂ st st (fun _ => rfl), h]

/-- Witness for C9: IP `198.51.100.7` saturating alongside different traffic
from IP `203.0.113.9` in the two runs gets identical decisions. -/
theorem rate_limit_noninterference_witness :
    ([tokenReq "198.51.100.7" 0, tokenReq "203.0.113.9" 1,
        tokenReq "198.51.100.7" 2].filter (fun r => r.ip = "198.51.100.7")
      = [tokenReq "203.0.113.9" 40, tokenReq "198.51.100.7" 0,
          tokenReq "198.51.100.7" 2, tokenReq "203.0.113.9" 50].filter
          (fun r => r.ip = "198.51.100.7"))
    ∧ (runTrace emptyRL [tokenReq "198.51.100.7" 0, tokenReq "203.0.113.9" 1,
        tokenReq "198.51.100.7" 2]).filter (fun x => x.1.ip = "198.51.100.7")
      = (runTrace emptyRL [tokenReq "203.0.113.9" 40, tokenReq "198.51.100.7" 0,
          tokenReq "198.51.100.7" 2, tokenReq "203.0.113.9" 50]).filter
          (fun x => x.1.ip = "198.51.100.7") :=
  ⟨by decide, rate_limit_noninterference emptyRL "198.51.100.7" _ _ (by decide)⟩

/-- Helper: traces compose over concatenation of request lists. -/
theorem runTrace_append (st : RLState) (l₁ l₂ : List RLReq) :
    runTrace st (l₁ ++ l₂) = runTrace st l₁ ++ runTrace (runState st l₁) l₂ := by
  induction l₁ generalizing st with
  | nil => simp [runTrace, runState]
  | cons r rest ih => simp [runTrace, runState, ih]

/-- Helper: the `/oauth/token` class resolves to itself. -/
theorem getLimitKey_token : getLimitKey "/oauth/token" = "/oauth/token" := by decide

/-- Helper: the `/oauth/token` budget is 20 requests per 60 seconds. -/
theorem limits_token : limits "/oauth/token" = (20, 60) := by
  with_unfolding_all decide

/-- Helper: while the window of an IP's `/oauth/token` cell is not exceeded
and the budget is not reached, every request is allowed and only the counter
advances. -/
theorem runTrace_token_fill (ip : String) (t0 : ℚ) (ts : List ℚ) :
    ∀ (st : RLState) (c : Nat),
      st ip "/oauth/token" = some ⟨c, t0⟩ →
      (∀ t ∈ ts, t0 ≤ t ∧ t - t0 ≤ 60) →
      c + ts.length ≤ 20 →
      runTrace st (ts.map (tokenReq ip)) = ts.map (fun t => (tokenReq ip t, true, 0))
      ∧ runState st (ts.map (tokenReq ip)) ip "/oauth/token"
          = some ⟨c + ts.length, t0⟩ := by
  induction ts with
  | nil => intro st c hst _ _; simpa [runTrace, runState] using hst
  | cons t ts ih =>
    intro st c hst hbound hcount
    have hb := hbound t (by simp)
    have hnext : c < 20 := by
      simp only [List.length_cons] at hcount; omega
    have hstep : checkRateLimit st ip "/oauth/token" t
        = (true, 0, st.set ip "/oauth/token" ⟨c + 1, t0⟩) := by
      unfold checkRateLimit
      rw [hst, limits_token]
      have h1 : ¬ (t - t0 > (60 : ℚ)) := not_lt.mpr hb.2
      dsimp only
      rw [if_neg h1, if_pos hnext]
    have hcell : st.set ip "/oauth/token" ⟨c + 1, t0⟩ ip "/oauth/token"
        = some ⟨c + 1, t0⟩ := by simp [RLState.set]
    obtain ⟨htr, hstate⟩ := ih (st.set ip "/oauth/token" ⟨c + 1, t0⟩) (c + 1) hcell
      (fun u hu => hbound u (List.mem_cons_of_mem _ hu))
      (by simp only [List.length_cons] at hcount; omega)
    constructor
    · simp only [List.map_cons, runTrace]
      dsimp only [tokenReq]
      rw [getLimitKey_token, hstep]
      dsimp only
      rw [htr]
      rfl
    · simp only [List.map_cons, runState]
      dsimp only [tokenReq]
      rw [getLimitKey_token, hstep]
      dsimp only
      rw [hstate]
      congr 2
      simp only [List.length_cons]
      omega

/-- C7 (amended) — From one IP, 21 requests to `/oauth/token` whose first
request opens the window and whose remaining 20 fall inside it: the first 20
are allowed and the 21st is rejected (429) with
`Retry-After = ⌊remaining window⌋ + 1`, which lies between 1 and **61**;
it is at most 60 whenever the 21st request arrives strictly after the
first. -/
theorem rate_limit_21st_rejected (ip : String) (t0 tl : ℚ) (rest : List ℚ)
    (hlen : rest.length = 19)
    (hbound : ∀ t ∈ rest, t0 ≤ t ∧ t - t0 ≤ 60)
    (hl0 : t0 ≤ tl) (hl60 : tl - t0 ≤ 60) :
    runTrace emptyRL ((t0 :: rest ++ [tl]).map (tokenReq ip))
      = ((t0 :: rest).map (fun t => (tokenReq ip t, true, 0)))
        ++ [(tokenReq ip tl, false, Rat.floor (60 - (tl - t0)) + 1)]
    ∧ 1 ≤ Rat.floor (60 - (tl - t0)) + 1
    ∧ Rat.floor (60 - (tl - t0)) + 1 ≤ 61
    ∧ (t0 < tl → Rat.floor (60 - (tl - t0)) + 1 ≤ 60) := by
  have hstep0 : checkRateLimit emptyRL ip "/oauth/token" t0
      = (true, 0, emptyRL.set ip "/oauth/token" ⟨1, t0⟩) := by
    unfold checkRateLimit
    rfl
  have hcell : emptyRL.set ip "/oauth/token" ⟨1, t0⟩ ip "/oauth/token"
      = some ⟨1, t0⟩ := by simp [RLState.set]
  obtain ⟨htr, hstate⟩ := runTrace_token_fill ip t0 rest
    (emptyRL.set ip "/oauth/token" ⟨1, t0⟩) 1 hcell hbound (by omega)
  have hlast : checkRateLimit
      (runState (emptyRL.set ip "/oauth/token" ⟨1, t0⟩) (rest.map (tokenReq ip)))
      ip "/oauth/token" tl
      = (false, Rat.floor (60 - (tl - t0)) + 1,
         runState (emptyRL.set ip "/oauth/token" ⟨1, t0⟩) (rest.map (tokenReq ip))) := by
    unfold checkRateLimit
    rw [hstate, hlen, limits_token]
    have h1 : ¬ (tl - t0 > (60 : ℚ)) := not_lt.mpr hl60
    have h2 : ¬ (1 + 19 < 20) := by omega
    dsimp only
    rw [if_neg h1, if_neg h2]
  refine ⟨?_, ?_, ?_, ?_⟩
  · have hmap : (t0 :: rest ++ [tl]).map (tokenReq ip)
        = tokenReq ip t0 :: (rest.map (tokenReq ip) ++ [tokenReq ip tl]) := by
      simp
    rw [hmap]
    simp only [runTrace]
    dsimp only [tokenReq]
    rw [getLimitKey_token, hstep0]
    dsimp only
    rw [runTrace_append, htr]
    simp only [runTrace, runState]
    dsimp only [tokenReq]
    rw [getLimitKey_token, hlast]
    simp [tokenReq]
  · have h0 : (0 : ℤ) ≤ Rat.floor (60 - (tl - t0)) := by
      rw [Rat.le_floor]
      push_cast
      linarith
    omega
  · have h61 : Rat.floor (60 - (tl - t0)) ≤ 60 := by
      by_contra hcon
      push_neg at hcon
      have : ((61 : ℤ) : ℚ) ≤ 60 - (tl - t0) := Rat.le_floor.mp (by omega)
      push_cast at this
      linarith
    omega
  · intro hlt
    have h60 : Rat.floor (60 - (tl - t0)) ≤ 59 := by
      by_contra hcon
      push_neg at hcon
      have : ((60 : ℤ) : ℚ) ≤ 60 - (tl - t0) := Rat.le_floor.mp (by omega)
      push_cast at this
      linarith
    omega

/-- Counterexample for C7 as stated: 21 requests to `/oauth/token` from one
IP carrying the same `time.time()` value — the 21st is rejected with
`Retry-After = 61`, outside the claimed range 1..60. -/
theorem rate_limit_retry_61_cex :
    (runTrace emptyRL (List.replicate 21 (tokenReq "203.0.113.5" 0))).map
        (fun x => (x.2.1, x.2.2))
      = List.replicate 20 ((true : Bool), (0 : Int)) ++ [(false, 61)]
    ∧ ¬((61 : Int) ≤ 60) := by with_unfolding_all decide

/-- Witness for C7 (amended): 21 requests, the first at `t = 0`, nineteen at
`t = 30` and the last at `t = 59`, get 20 allows and a 429 with
`Retry-After = 2`. -/
theorem rate_limit_21st_rejected_witness :
    (List.replicate 19 (30 : ℚ)).length = 19
    ∧ (runTrace emptyRL ((0 :: List.replicate 19 (30 : ℚ) ++ [59]).map
          (tokenReq "203.0.113.77"))
        = (((0 : ℚ) :: List.replicate 19 (30 : ℚ)).map
            (fun t => (tokenReq "203.0.113.77" t, true, 0)))
          ++ [(tokenReq "203.0.113.77" 59, false, Rat.floor (60 - ((59 : ℚ) - 0)) + 1)]
      ∧ 1 ≤ Rat.floor (60 - ((59 : ℚ) - 0)) + 1
      ∧ Rat.floor (60 - ((59 : ℚ) - 0)) + 1 ≤ 61
      ∧ ((0 : ℚ) < 59 → Rat.floor (60 - ((59 : ℚ) - 0)) + 1 ≤ 60)) :=
  ⟨by decide,
   rate_limit_21st_rejected "203.0.113.77" 0 59 (List.replicate 19 (30 : ℚ))
     (by decide) (by with_unfolding_all decide) (by decide)
     (by with_unfolding_all decide)⟩

/-! ## Application listing vs. the access-decision engine (C2) -/

/-- Counterexample for C2 as stated: an active, non-public application with
no grants and no departmental restriction is returned by the listing to a
non-admin user although the three-test engine denies it (the endpoint never
evaluates the principal gate, and sorts nothing). -/
theorem listing_vs_engine_cex :
    list_applications exDb exBob
      ≠ sortByName (exDb.applications.filter (fun a => accessDecision exDb exBob a))
    ∧ exApp ∈ list_applications exDb exBob
    ∧ accessDecision exDb exBob exApp = false := by decide

/-- C2 (amended) — The listing endpoint returns exactly the applications
that are active and pass the department gate, in stored order; the principal
gate (`is_public` / admin / direct grant / group grant) is not applied and
no sort by name is performed. -/
theorem listing_active_department_only (db : DB) (u : User) :
    list_applications db u = db.applications.filter (fun a =>
      a.is_active && (a.allowed_departments.isEmpty
        || a.allowed_departments.contains (u.department.getD ""))) := by
  unfold list_applications
  rw [List.filter_filter]
  apply List.filter_congr
  intro a _
  rw [Bool.and_comm]

/-! ## Audit coverage of the admin surface (C3) -/

/-- Counterexample for C3 as stated: a successful `is_public` toggle — one of
the admin-surface mutations the claim quantifies over, and the very handler
the claim cites — commits while writing no `AuditLog` row at all, so no
(action, entity_type, entity_id) has exactly one matching row. -/
theorem set_public_no_audit_cex :
    set_application_public exDb exAdmin 1 true
      = .ok ({ exDb with applications := [{ exApp with is_public := true }] }, true)
    ∧ ({ exDb with applications := [{ exApp with is_public := true }] } : DB).audit
        = []
    ∧ exDb.audit = [] := by decide

/-- C3 (amended) — The audited admin mutations write exactly one audit row,
atomically with the mutation: a user update that changes a flag commits with
precisely one new `("user.update", "user", target)` row appended, an access
grant that adds a grant commits with precisely one new
`("access.grant", "application", app)` row appended — both inside the single
returned state, so they commit or roll back together — while the `is_public`
toggle (among other handlers) writes no audit row at all. -/
theorem admin_audit_coverage :
    (∀ (db : DB) (admin : User) (uid : Nat) (data : UserUpdateRequest)
       (user : User) (b : Bool),
       db.users.find? (fun x => x.id = uid) = some user →
       ¬(user.id = admin.id ∧ data.is_admin = some false) →
       data.is_active = some b →
       user.is_active ≠ b →
       ∃ r, update_user db admin uid data = .ok r
         ∧ r.1.audit = db.audit
             ++ [⟨some admin.id, "user.update", "user", some user.id⟩])
    ∧ (∀ (db : DB) (admin : User) (data : AccessGrantRequest)
         (app : Application) (u : Nat),
       db.applications.find? (fun a => a.id = data.application_id) = some app →
       data.user_ids = [u] →
       data.group_ids = [] →
       db.access.any (fun r => decide (r.user_id = some u)
         && decide (r.application_id = data.application_id)) = false →
       ∃ r, grant_access db admin data = .ok r ∧ r.2 = 1
         ∧ r.1.audit = db.audit
             ++ [⟨some admin.id, "access.grant", "application",
                  some data.application_id⟩])
    ∧ (∀ (db : DB) (admin : User) (app_id : Nat) (b : Bool) (r : DB × Bool),
       set_application_public db admin app_id b = .ok r →
       r.1.audit = db.audit) := by
  refine ⟨?_, ?_, ?_⟩
  · intro db admin uid data user b hfind hself hact hdiff
    unfold update_user
    rw [hfind]
    try dsimp only
    rw [if_neg hself, hact]
    try dsimp only
    rw [if_pos hdiff]
    cases hadm : data.is_admin with
    | none =>
      refine ⟨_, rfl, ?_⟩
      simp [AuditService.log_action]
    | some b2 =>
      try dsimp only
      by_cases h2 : user.is_admin ≠ b2
      · rw [if_pos h2]
        refine ⟨_, rfl, ?_⟩
        simp [AuditService.log_action]
      · rw [if_neg h2]
        refine ⟨_, rfl, ?_⟩
        simp [AuditService.log_action]
  · intro db admin data app u happ hu hg habs
    unfold grant_access
    rw [happ]
    try dsimp only
    rw [hu, hg]
    simp only [List.foldl_cons, List.foldl_nil]
    unfold grantStep
    simp only [eq_self_iff_true, if_true, habs]
    simp only [Bool.false_eq_true, if_false]
    try dsimp only
    rw [if_pos (show (0 : Nat) + 1 > 0 by omega)]
    refine ⟨_, rfl, rfl, ?_⟩
    simp [AuditService.log_action]
  · intro db admin app_id b r h
    unfold set_application_public at h
    cases hfind : db.applications.find? (fun a => a.id = app_id) with
    | none => rw [hfind] at h; exact absurd h (by simp)
    | some app =>
      rw [hfind] at h
      simp only [Except.ok.injEq] at h
      rw [← h]

/-- Witness for C3 (amended): on the concrete store, demoting Bob writes one
`user.update` row, granting Bob access writes one `access.grant` row, and
toggling `is_public` writes none. -/
theorem admin_audit_coverage_witness :
    (∃ r, update_user exDb exAdmin 2 ⟨some false, none⟩ = .ok r
       ∧ r.1.audit = exDb.audit ++ [⟨some 1, "user.update", "user", some 2⟩])
    ∧ (∃ r, grant_access exDb exAdmin ⟨1, [2], []⟩ = .ok r ∧ r.2 = 1
       ∧ r.1.audit = exDb.audit
           ++ [⟨some 1, "access.grant", "application", some 1⟩])
    ∧ ({ exDb with applications := [{ exApp with is_public := true }] } : DB).audit
        = exDb.audit :=
  ⟨admin_audit_coverage.1 exDb exAdmin 2 ⟨some false, none⟩ exBob false
     (by decide) (by decide) rfl (by decide),
   admin_audit_coverage.2.1 exDb exAdmin ⟨1, [2], []⟩ exApp 2
     (by decide) rfl rfl (by decide),
   admin_audit_coverage.2.2 exDb exAdmin 1 true
     ({ exDb with applications := [{ exApp with is_public := true }] }, true)
     (by decide)⟩

/-! ## Idempotence of grant and revoke (C8) -/

/-- C8 — Granting an already-granted (user or group) principal adds no row
and counts 0 granted, leaving the store untouched; revoking an absent (user
or group) grant deletes nothing and counts 0 revoked. -/
theorem grant_revoke_idempotent (db : DB) (admin : User)
    (appId u g v w : Nat) (app : Application)
    (happ : db.applications.find? (fun a => a.id = appId) = some app)
    (hu : db.access.any (fun r => decide (r.user_id = some u)
      && decide (r.application_id = appId)) = true)
    (hg : db.access.any (fun r => decide (r.group_id = some g)
      && decide (r.application_id = appId)) = true)
    (hv : ∀ r ∈ db.access, revokeUserMatch ⟨appId, [v], []⟩ r = false)
    (hw : ∀ r ∈ db.access, revokeGroupMatch ⟨appId, [], [w]⟩ r = false) :
    grant_access db admin ⟨appId, [u], [g]⟩ = .ok (db, 0)
    ∧ revoke_access db admin ⟨appId, [v], []⟩ = .ok (db, 0)
    ∧ revoke_access db admin ⟨appId, [], [w]⟩ = .ok (db, 0) := by
  refine ⟨?_, ?_, ?_⟩
  · unfold grant_access
    rw [happ]
    simp only [List.foldl_cons, List.foldl_nil]
    unfold grantStep
    simp only [eq_self_iff_true, if_true, Bool.false_eq_true, if_false]
    rw [hu]
    simp only [eq_self_iff_true, if_true]
    try dsimp only
    rw [hg]
    simp only [eq_self_iff_true, if_true]
    simp only [gt_iff_lt, lt_self_iff_false, if_false]
    try rfl
  · have hrows : db.access.filter (fun r => !revokeUserMatch ⟨appId, [v], []⟩ r)
        = db.access :=
      List.filter_eq_self.mpr (fun a ha => by rw [hv a ha]; rfl)
    have hnone : db.access.filter (revokeUserMatch ⟨appId, [v], []⟩) = [] :=
      List.filter_eq_nil_iff.mpr (fun a ha => by simp [hv a ha])
    unfold revoke_access
    simp only [List.isEmpty_nil, List.isEmpty_cons, eq_self_iff_true, if_true,
      Bool.false_eq_true, if_false]
    rw [hrows, hnone]
    simp only [List.length_nil, Nat.add_zero, Nat.zero_add, gt_iff_lt,
      lt_self_iff_false, if_false]
    try rfl
  · have hrows : db.access.filter (fun r => !revokeGroupMatch ⟨appId, [], [w]⟩ r)
        = db.access :=
      List.filter_eq_self.mpr (fun a ha => by rw [hw a ha]; rfl)
    have hnone : db.access.filter (revokeGroupMatch ⟨appId, [], [w]⟩) = [] :=
      List.filter_eq_nil_iff.mpr (fun a ha => by simp [hw a ha])
    unfold revoke_access
    simp only [List.isEmpty_nil, List.isEmpty_cons, eq_self_iff_true, if_true,
      Bool.false_eq_true, if_false]
    rw [hrows, hnone]
    simp only [List.length_nil, Nat.add_zero, Nat.zero_add, gt_iff_lt,
      lt_self_iff_false, if_false]
    try rfl

/-- Witness for C8: on a store where Bob (user 2) and group 10 already hold
grants on application 1, re-granting them is a no-op and revoking user 3 /
group 11 is a no-op. -/
theorem grant_revoke_idempotent_witness :
    grant_access exDbGrants exAdmin ⟨1, [2], [10]⟩ = .ok (exDbGrants, 0)
    ∧ revoke_access exDbGrants exAdmin ⟨1, [3], []⟩ = .ok (exDbGrants, 0)
    ∧ revoke_access exDbGrants exAdmin ⟨1, [], [11]⟩ = .ok (exDbGrants, 0) :=
  grant_revoke_idempotent exDbGrants exAdmin 1 2 10 3 11 exApp
    (by decide) (by decide) (by decide) (by decide) (by decide)

/-! ## Admin self-protection (C10) -/

/-- C10 — An admin cannot strip their own privileges: a user update that
targets the acting admin with `is_admin = false` fails with 400, and a bulk
`deactivate` / `remove_admin` whose ids include the acting admin fails with
400; in both cases the handler raises before mutating anything, so the
transaction returns no new state. -/
theorem admin_self_protection (db : DB) (admin target : User)
    (dataU : UserUpdateRequest) (dataB : BulkUserActionRequest)
    (hfind : db.users.find? (fun x => x.id = admin.id) = some target)
    (hdemote : dataU.is_admin = some false)
    (hbulk : dataB.user_ids.contains admin.id ∧
      (dataB.action = "deactivate" ∨ dataB.action = "remove_admin")) :
    update_user db admin admin.id dataU
      = .error ⟨400, "Cannot remove your own admin status"⟩
    ∧ bulk_user_action db admin dataB
      = .error ⟨400, "Cannot perform this action on yourself"⟩ := by
  constructor
  · have hid : target.id = admin.id := by
      have h := List.find?_some hfind
      simpa using h
    unfold update_user
    rw [hfind]
    try dsimp only
    rw [if_pos ⟨hid, hdemote⟩]
  · unfold bulk_user_action
    rw [if_pos hbulk]

/-- Witness for C10: the concrete admin (id 1) can neither demote themself
nor bulk-deactivate a set containing themself. -/
theorem admin_self_protection_witness :
    update_user exDb exAdmin exAdmin.id ⟨none, some false⟩
      = .error ⟨400, "Cannot remove your own admin status"⟩
    ∧ bulk_user_action exDb exAdmin ⟨[1, 2], "deactivate"⟩
      = .error ⟨400, "Cannot perform this action on yourself"⟩ :=
  admin_self_protection exDb exAdmin exAdmin ⟨none, some false⟩
    ⟨[1, 2], "deactivate"⟩ (by decide) rfl (by decide)

/-! ## Authorize-endpoint failures before trust is established (C5) -/

/-- Counterexample for C5 as stated: an authorize request with an unknown
`client_id` is answered with a **302 redirect** carrying
`error=invalid_client` to the supplied — and never verified — `redirect_uri`
(`api/oauth.py` lines 72–75), not with a direct 4xx. -/
theorem authorize_unknown_client_redirect_cex :
    (authorize exDb 0 "code" "ghost" "https://evil.example/cb" "openid"
        none none none none).1
      = .redirect "https://evil.example/cb?error=invalid_client&state="
    ∧ ∀ s d, (authorize exDb 0 "code" "ghost" "https://evil.example/cb" "openid"
        none none none none).1 ≠ .clientError s d := by
  have h1 : (authorize exDb 0 "code" "ghost" "https://evil.example/cb" "openid"
      none none none none).1
      = .redirect "https://evil.example/cb?error=invalid_client&state=" := by decide
  exact ⟨h1, fun s d h => by rw [h1] at h; exact HttpResponse.noConfusion h⟩

/-- C5 (amended) — For a `response_type=code` request whose PKCE method is
valid (`S256` or `plain`) or absent: a `redirect_uri` outside the registered
list of a known client is answered with a direct 400 and no redirect, but an
unknown or inactive `client_id` is answered with a 302 redirect to the
supplied (unverified) `redirect_uri` carrying `error=invalid_client`. -/
theorem authorize_pre_trust_failures (db : DB) (now : ℚ)
    (cid ruri scope : String) (st ch chm : Option String) (user : Option User)
    (hm : chm = none ∨ chm = some "S256" ∨ chm = some "plain") :
    (get_application_by_client_id db cid = none →
      (authorize db now "code" cid ruri scope st ch chm user).1
        = .redirect (ruri ++ "?error=invalid_client&state=" ++ st.getD ""))
    ∧ (∀ app, get_application_by_client_id db cid = some app →
        validate_redirect_uri app ruri = false →
        (authorize db now "code" cid ruri scope st ch chm user).1
          = .clientError 400 "Invalid redirect_uri") := by
  rcases hm with rfl | rfl | rfl <;>
    exact ⟨fun h => by simp [authorize, h],
           fun app h hval => by simp [authorize, h, hval]⟩

/-- Witness for C5 (amended): on the concrete store, an unknown client id is
redirected to the unverified URI — both with no PKCE method and with a
well-formed `S256` challenge — and the registered client with an
unregistered URI receives a direct 400. -/
theorem authorize_pre_trust_failures_witness :
    (authorize exDb 0 "code" "ghost2" "https://evil.example/cb" "openid"
        none none none none).1
      = .redirect ("https://evil.example/cb" ++ "?error=invalid_client&state="
          ++ (none : Option String).getD "")
    ∧ (authorize exDb 0 "code" "cid1" "https://evil.example/cb" "openid"
        none none none none).1
      = .clientError 400 "Invalid redirect_uri"
    ∧ (authorize exDb 0 "code" "ghost2" "https://evil.example/cb" "openid"
        none (some "E9Melhoa2OwvFrEMTJguCHaoeK1t8URWbuGJSstw-cM")
        (some "S256") none).1
      = .redirect ("https://evil.example/cb" ++ "?error=invalid_client&state="
          ++ (none : Option String).getD "") :=
  ⟨(authorize_pre_trust_failures exDb 0 "ghost2" "https://evil.example/cb"
      "openid" none none none none (Or.inl rfl)).1 (by decide),
   (authorize_pre_trust_failures exDb 0 "cid1" "https://evil.example/cb"
      "openid" none none none none (Or.inl rfl)).2 exApp (by decide) (by decide),
   (authorize_pre_trust_failures exDb 0 "ghost2" "https://evil.example/cb"
      "openid" none (some "E9Melhoa2OwvFrEMTJguCHaoeK1t8URWbuGJSstw-cM")
      (some "S256") none (Or.inr (Or.inl rfl))).1 (by decide)⟩

/-! ## Revocation endpoint always answers 200 (C6) -/

/-- C6 — Once the client's credentials verify, the revocation endpoint
returns 200 with an empty body for **every** token value — unknown, owned by
another client, or already revoked alike (those leave the store unchanged
inside `revoke_token_svc`) — so the response never reveals whether the token
existed. -/
theorem revoke_always_200 (db : DB) (now : ℚ) (token cid secret : String)
    (app : Application)
    (happ : get_application_by_client_id db cid = some app)
    (hsec : verify_secret secret app.client_secret_hash = true) :
    revoke_endpoint db now token cid secret
      = .ok (revoke_token_svc db now token app.id, ()) := by
  unfold revoke_endpoint
  rw [happ]
  try dsimp only
  rw [hsec]
  simp

/-- Witness for C6: revoking a token string that exists nowhere still
returns 200 with the empty body. -/
theorem revoke_always_200_witness :
    revoke_endpoint exDb 0 "no-such-token" "cid1" "s3cret1"
      = .ok (revoke_token_svc exDb 0 "no-such-token" exApp.id, ()) :=
  revoke_always_200 exDb 0 "no-such-token" "cid1" "s3cret1" exApp
    (by decide) (by decide)

/-! ## PKCE soundness at redemption (C4) -/

set_option maxRecDepth 10000 in
/-- Sanity check of the `S256` computation against the RFC 7636 appendix B
test vector: the challenge of verifier `dBjftJeZ4CVP-mB92K27uhbUJU1p1r_wW1gFWFOEjXk`
is `E9Melhoa2OwvFrEMTJguCHaoeK1t8URWbuGJSstw-cM`. -/
theorem pkceMatch_s256_rfc7636_vector :
    pkceMatch (some "S256") "dBjftJeZ4CVP-mB92K27uhbUJU1p1r_wW1gFWFOEjXk"
      "E9Melhoa2OwvFrEMTJguCHaoeK1t8URWbuGJSstw-cM" = true := by decide

/-- Helper: when the looked-up code carries a challenge and the presented
verifier is absent or fails the PKCE comparison, redemption yields
`invalid_grant` (whatever else holds, every failing branch of the
authorization_code exchange with a challenge present is `invalid_grant`). -/
theorem exchange_pkce_fail (db : DB) (now : ℚ) (code cid ruri : String)
    (secret verifier : Option String) (c : OAuthCode) (challenge : String)
    (hc : db.codes.find? (fun x => x.code = code) = some c)
    (hch : c.code_challenge = some challenge)
    (hbad : ∀ v, verifier = some v →
      pkceMatch c.code_challenge_method v challenge = false) :
    exchange_code_for_tokens db now code cid secret ruri verifier
      = .error "invalid_grant" := by
  unfold exchange_code_for_tokens
  rw [hc]
  try dsimp only
  rw [hch]
  by_cases h1 : c.consumed_at.isSome = true
  · rw [if_pos h1]
  · rw [if_neg h1]
    by_cases h2 : c.expires_at < now
    · rw [if_pos h2]
    · rw [if_neg h2]
      cases happ2 : db.applications.find? (fun a => a.id = c.application_id) with
      | none => rfl
      | some app =>
        try dsimp only
        by_cases h3 : app.client_id ≠ cid
        · rw [if_pos h3]
        · rw [if_neg h3]
          by_cases h4 : c.redirect_uri ≠ ruri
          · rw [if_pos h4]
          · rw [if_neg h4]
            cases hver : verifier with
            | none => rfl
            | some v =>
              try dsimp only
              rw [hbad v hver]
              simp

/-- C4 — PKCE soundness: when the stored code was issued with a challenge,
redemption succeeds only with a verifier passing the PKCE comparison —
`pkceMatch` is `BASE64URL(SHA-256(code_verifier)) = code_challenge` for
method `S256` and character-for-character equality for `plain` — and any
other verifier (or a missing one) yields `invalid_grant`. -/
theorem pkce_soundness (db : DB) (now : ℚ) (code cid ruri : String)
    (secret verifier : Option String) (c : OAuthCode) (challenge : String)
    (hc : db.codes.find? (fun x => x.code = code) = some c)
    (hch : c.code_challenge = some challenge) :
    (∀ r, exchange_code_for_tokens db now code cid secret ruri verifier = .ok r →
       ∃ v, verifier = some v ∧ pkceMatch c.code_challenge_method v challenge = true)
    ∧ (∀ v, verifier = some v →
        pkceMatch c.code_challenge_method v challenge = false →
        exchange_code_for_tokens db now code cid secret ruri verifier
          = .error "invalid_grant")
    ∧ (verifier = none →
        exchange_code_for_tokens db now code cid secret ruri verifier
          = .error "invalid_grant") := by
  refine ⟨?_, ?_, ?_⟩
  · intro r hr
    unfold exchange_code_for_tokens at hr
    rw [hc] at hr
    try dsimp only at hr
    rw [hch] at hr
    by_cases h1 : c.consumed_at.isSome = true
    · rw [if_pos h1] at hr; exact Except.noConfusion hr
    · rw [if_neg h1] at hr
      by_cases h2 : c.expires_at < now
      · rw [if_pos h2] at hr; exact Except.noConfusion hr
      · rw [if_neg h2] at hr
        cases happ2 : db.applications.find? (fun a => a.id = c.application_id) with
        | none => rw [happ2] at hr; exact Except.noConfusion hr
        | some app =>
          rw [happ2] at hr
          try dsimp only at hr
          by_cases h3 : app.client_id ≠ cid
          · rw [if_pos h3] at hr; exact Except.noConfusion hr
          · rw [if_neg h3] at hr
            by_cases h4 : c.redirect_uri ≠ ruri
            · rw [if_pos h4] at hr; exact Except.noConfusion hr
            · rw [if_neg h4] at hr
              cases hver : verifier with
              | none =>
                rw [hver] at hr
                try dsimp only at hr
                exact Except.noConfusion hr
              | some v =>
                rw [hver] at hr
                try dsimp only at hr
                by_cases hm : pkceMatch c.code_challenge_method v challenge = true
                · exact ⟨v, rfl, hm⟩
                · rw [if_neg hm] at hr
                  exact Except.noConfusion hr
  · intro v hv hbadv
    refine exchange_pkce_fail db now code cid ruri secret verifier c challenge
      hc hch (fun v' hv' => ?_)
    have h := hv.symm.trans hv'
    injection h with h
    rw [← h]
    exact hbadv
  · intro hnone
    exact exchange_pkce_fail db now code cid ruri secret verifier c challenge
      hc hch (fun v' hv' => Option.noConfusion (hnone.symm.trans hv'))

/-- Witness for C4: on the concrete store whose code `c1` carries the
`plain` challenge `xyz`, the theorem instantiates; in particular the wrong
verifier `wrong` is rejected with `invalid_grant`. -/
theorem pkce_soundness_witness :
    exDbOAuth.codes.find? (fun x => x.code = "c1") = some exCode
    ∧ exchange_code_for_tokens exDbOAuth 500 "c1" "cid1" none
        "https://wiki.example/cb" (some "wrong") = .error "invalid_grant" :=
  ⟨by decide,
   (pkce_soundness exDbOAuth 500 "c1" "cid1" "https://wiki.example/cb" none
       (some "wrong") exCode "xyz" (by decide) rfl).2.1 "wrong" rfl (by decide)⟩

/-! ## Authorization-code single use (C1) -/

/-- Helper: `markCode` preserves the `code` key, so `find?` by code commutes
with the marking map. -/
theorem find?_map_markCode (l : List OAuthCode) (code C : String) (now : ℚ) :
    (l.map (markCode code now)).find? (fun c => c.code = C)
      = (l.find? (fun c => c.code = C)).map (markCode code now) := by
  induction l with
  | nil => rfl
  | cons x l ih =>
    have hcode : (markCode code now x).code = x.code := by
      unfold markCode; split <;> rfl
    by_cases hx : x.code = C
    · simp [List.find?_cons, hcode, hx]
    · simp [List.find?_cons, hcode, hx, ih]

/-- Helper: a successful exchange rewrites the code table by marking exactly
the redeemed code consumed. -/
theorem exchange_ok_codes (db : DB) (now : ℚ) (code cid ruri : String)
    (secret verifier : Option String) (r : DB × TokenResponse)
    (h : exchange_code_for_tokens db now code cid secret ruri verifier = .ok r) :
    r.1.codes = db.codes.map (markCode code now) := by
  unfold exchange_code_for_tokens at h
  try dsimp only at h
  repeat' split at h
  all_goals first
    | exact Except.noConfusion h
    | (simp only [Except.ok.injEq] at h; rw [← h])

/-- Helper: redeeming an already-consumed code fails and leaves the store
unchanged. -/
theorem redeemStep_consumed (db : DB) (e : RedeemAttempt)
    (h : consumedB db e.code = true) : redeemStep db e = (db, false) := by
  unfold consumedB at h
  cases hc : db.codes.find? (fun c => c.code = e.code) with
  | none => rw [hc] at h; exact absurd h (by simp)
  | some c =>
    rw [hc] at h
    unfold redeemStep exchange_code_for_tokens
    rw [hc]
    try dsimp only
    rw [if_pos h]

/-- Helper: a successful redemption marks its code consumed. -/
theorem redeemStep_marks (db : DB) (e : RedeemAttempt)
    (h : (redeemStep db e).2 = true) :
    consumedB (redeemStep db e).1 e.code = true := by
  unfold redeemStep at *
  cases hex : exchange_code_for_tokens db e.now e.code e.client_id
      e.client_secret e.redirect_uri e.code_verifier with
  | error err => rw [hex] at h; simp at h
  | ok r =>
    try dsimp only
    have hcodes := exchange_ok_codes db e.now e.code e.client_id
      e.redirect_uri e.client_secret e.code_verifier r hex
    unfold consumedB
    rw [hcodes, find?_map_markCode]
    cases hc : db.codes.find? (fun c => c.code = e.code) with
    | none =>
      exfalso
      unfold exchange_code_for_tokens at hex
      rw [hc] at hex
      exact Except.noConfusion hex
    | some c =>
      have hcc : c.code = e.code := by
        have hp := List.find?_some hc
        simpa using hp
      unfold markCode
      simp only [Option.map_some']
      try dsimp only
      rw [if_pos hcc]
      rfl

/-- Helper: consumption is monotone — no redemption step (of any code)
clears a `consumed_at` mark. -/
theorem consumedB_redeemStep_mono (db : DB) (e : RedeemAttempt) (C : String)
    (h : consumedB db C = true) : consumedB (redeemStep db e).1 C = true := by
  unfold redeemStep
  cases hex : exchange_code_for_tokens db e.now e.code e.client_id
      e.client_secret e.redirect_uri e.code_verifier with
  | error err => exact h
  | ok r =>
    have hcodes := exchange_ok_codes db e.now e.code e.client_id
      e.redirect_uri e.client_secret e.code_verifier r hex
    unfold consumedB at h ⊢
    try dsimp only
    rw [hcodes, find?_map_markCode]
    cases hc : db.codes.find? (fun c => c.code = C) with
    | none => rw [hc] at h; exact absurd h (by simp)
    | some c =>
      rw [hc] at h
      try dsimp only at h
      unfold markCode
      simp only [Option.map_some']
      try dsimp only
      by_cases hcc : c.code = e.code
      · rw [if_pos hcc]
        rfl
      · rw [if_neg hcc]
        exact h

/-- Helper: once a code is consumed, no later attempt sequence redeems it. -/
theorem successCount_consumed (db : DB) (C : String) (evs : List RedeemAttempt)
    (h : consumedB db C = true) : successCount db C evs = 0 := by
  induction evs generalizing db with
  | nil => rfl
  | cons e evs ih =>
    simp only [successCount]
    try dsimp only
    by_cases hec : e.code = C
    · have hcons : consumedB db e.code = true := by rw [hec]; exact h
      rw [redeemStep_consumed db e hcons]
      rw [if_neg (by simp)]
      try dsimp only
      simp [ih db h]
    · rw [if_neg (fun hand => hec hand.2)]
      have hmono := consumedB_redeemStep_mono db e C h
      simp [ih _ hmono]

/-- C1 — Code single-use: along any sequence of redemption attempts at the
token endpoint (serialised per §4.7's row lock), every authorization code is
successfully redeemed at most once; the success marks `consumed_at` in the
same committed state as token issuance, and every later attempt on the same
code fails with `invalid_grant`. -/
theorem code_single_use (db : DB) (C : String) (evs : List RedeemAttempt) :
    successCount db C evs ≤ 1 := by
  induction evs generalizing db with
  | nil => simp [successCount]
  | cons e evs ih =>
    simp only [successCount]
    try dsimp only
    by_cases hcond : (redeemStep db e).2 = true ∧ e.code = C
    · rw [if_pos hcond]
      have hmark := redeemStep_marks db e hcond.1
      rw [hcond.2] at hmark
      rw [successCount_consumed _ _ _ hmark]
    · rw [if_neg hcond]
      simpa using ih _

end AIHub
